import Mathlib

/-!
Verification development for the takopi message-coalescing and
session-serialized execution core.

The Lean definitions below are a shallow embedding of:
  * `src/takopi/telegram/debouncer.py`  (TopicDebouncer and its data model)
  * `codex/codex_telegram_bridge/exec_bridge.py`  (CodexExecRunner)

Modelling conventions:
  * Python floats (timestamps, windows) are modelled as rationals `ℚ`;
    the code only adds and compares them.
  * Python dicts (insertion ordered) are modelled as association lists
    whose keys are unique in every reachable state.
  * Mutating methods become functions `state → (result × state)`.
-/

namespace Takopi

/-- Modelled from the spec: `RunContext` (from `takopi.context`, not under
`src/`) is an immutable value with optional project and branch strings. -/
structure RunContext where
  project : Option String
  branch : Option String
deriving DecidableEq, Repr

/-- Modelled from the spec: `ResumeToken` (from `takopi.model`, not under
`src/`) is an immutable value with an engine name and an opaque session
handle. -/
structure ResumeToken where
  engine : String
  value : String
deriving DecidableEq, Repr

/-- Modelled from the spec: `EngineId` (from `takopi.model`, not under
`src/`) is an engine identifier string. -/
abbrev EngineId := String

/-- Embeds `PendingMessage` from `debouncer.py`. -/
structure PendingMessage where
  chat_id : Int
  user_msg_id : Int
  text : String
  resume_token : Option ResumeToken
  context : Option RunContext
  thread_id : Option Int
  engine_override : Option EngineId
  timestamp : ℚ
deriving DecidableEq, Repr

/-- Embeds `MessageBatch` from `debouncer.py`. -/
structure MessageBatch where
  chat_id : Int
  first_msg_id : Int
  last_msg_id : Int
  combined_text : String
  resume_token : Option ResumeToken
  context : Option RunContext
  thread_id : Option Int
  engine_override : Option EngineId
deriving DecidableEq, Repr

/-- Embeds `TopicKey = tuple[int, int | None]` : (chat_id, thread_id). -/
abbrev TopicKey := Int × Option Int

/-- Embeds the internal `_PendingBatch`: the accumulated messages and the
current deadline. -/
structure PendingBatch where
  messages : List PendingMessage
  deadline : ℚ
deriving DecidableEq, Repr

/-- Embeds the state of `TopicDebouncer`: the window in seconds and the
pending dict, modelled as an insertion-ordered association list. -/
structure TopicDebouncer where
  window_s : ℚ
  pending : List (TopicKey × PendingBatch)
deriving DecidableEq, Repr

namespace TopicDebouncer

/-- Embeds `TopicDebouncer.__init__(window_ms)`: `_window_s = window_ms / 1000`,
empty pending dict. -/
def init (window_ms : ℚ) : TopicDebouncer :=
  { window_s := window_ms / 1000, pending := [] }

/-- Dict lookup on the association list (keys are unique in reachable
states, so first match is the dict entry). -/
def lookupKey (p : List (TopicKey × PendingBatch)) (k : TopicKey) :
    Option PendingBatch :=
  match p with
  | [] => none
  | (k', b) :: rest => if k' = k then some b else lookupKey rest k

/-- In-place update of the entry for key `k` (the Python code mutates the
`_PendingBatch` object stored in the dict). -/
def updateKey (p : List (TopicKey × PendingBatch)) (k : TopicKey)
    (b : PendingBatch) : List (TopicKey × PendingBatch) :=
  match p with
  | [] => []
  | (k', b') :: rest =>
      if k' = k then (k', b) :: rest else (k', b') :: updateKey rest k b

/-- Embeds `_finalize_batch`: combined text is the newline join in list
order; ids and routing fields come from the first and last list elements.
On reachable states `messages` is nonempty and in arrival order; on the
empty list Python would raise `IndexError`, which is outside the claims,
so a default `MessageBatch` stands in to keep the function total. -/
def finalize_batch (b : PendingBatch) : MessageBatch :=
  match b.messages with
  | [] =>
      { chat_id := 0, first_msg_id := 0, last_msg_id := 0, combined_text := ""
        resume_token := none, context := none, thread_id := none
        engine_override := none }
  | first :: _ =>
      { chat_id := first.chat_id
        first_msg_id := first.user_msg_id
        last_msg_id := (b.messages.getLast?.getD first).user_msg_id
        combined_text := String.intercalate "\n" (b.messages.map (·.text))
        resume_token := first.resume_token
        context := first.context
        thread_id := first.thread_id
        engine_override := first.engine_override }

/-- Embeds `add_message`: with a non-positive window, return a
single-message batch immediately; otherwise append to the topic's pending
batch (creating it if absent, at the end of the dict) and overwrite its
deadline with `msg.timestamp + window`. -/
def add_message (d : TopicDebouncer) (msg : PendingMessage) :
    Option MessageBatch × TopicDebouncer :=
  if d.window_s ≤ 0 then
    (some { chat_id := msg.chat_id,
            first_msg_id := msg.user_msg_id,
            last_msg_id := msg.user_msg_id,
            combined_text := msg.text,
            resume_token := msg.resume_token,
            context := msg.context,
            thread_id := msg.thread_id,
            engine_override := msg.engine_override }, d)
  else
    let key : TopicKey := (msg.chat_id, msg.thread_id)
    let now := msg.timestamp
    match lookupKey d.pending key with
    | none =>
        let p' := d.pending ++ [(key, ⟨[msg], now + d.window_s⟩)]
        (none, { d with pending := p' })
    | some b =>
        let p' := updateKey d.pending key ⟨b.messages ++ [msg], now + d.window_s⟩
        (none, { d with pending := p' })

/-- Predicate for the expiry test in `check_expired`:
`batch.deadline <= now and batch.messages`. -/
def isExpired (now : ℚ) (b : PendingBatch) : Bool :=
  decide (b.deadline ≤ now) && !b.messages.isEmpty

/-- Embeds `check_expired(now)`: finalize and remove every pending batch
whose deadline has passed and whose message list is nonempty, in dict
iteration (insertion) order. -/
def check_expired (d : TopicDebouncer) (now : ℚ) :
    List MessageBatch × TopicDebouncer :=
  ((d.pending.filter (fun kb => isExpired now kb.2)).map
      (fun kb => finalize_batch kb.2),
   { d with pending := d.pending.filter (fun kb => !isExpired now kb.2) })

/-- Embeds `next_deadline()`: `None` when the pending dict is empty,
otherwise the minimum deadline over batches with nonempty messages.
(When the dict is nonempty but every batch has an empty message list —
unreachable, since batches are created only by `add_message`, which
appends — Python's `min` would raise; the model returns `none` there.) -/
def next_deadline (d : TopicDebouncer) : Option ℚ :=
  if d.pending.isEmpty then none
  else ((d.pending.filter (fun kb => !kb.2.messages.isEmpty)).map
      (fun kb => kb.2.deadline)).min?

/-- Embeds `flush_all()`: finalize every pending batch with nonempty
messages, in dict order, and clear all pending state. -/
def flush_all (d : TopicDebouncer) : List MessageBatch × TopicDebouncer :=
  ((d.pending.filter (fun kb => !kb.2.messages.isEmpty)).map
      (fun kb => finalize_batch kb.2),
   { d with pending := [] })

/-- Embeds `flush_topic(key)`: pop the entry for `key` (removing it even
when its message list is empty), returning its finalized batch when the
messages are nonempty. -/
def flush_topic (d : TopicDebouncer) (key : TopicKey) :
    Option MessageBatch × TopicDebouncer :=
  match lookupKey d.pending key with
  | none => (none, d)
  | some b =>
      ((if b.messages.isEmpty then none else some (finalize_batch b)),
       { d with pending := d.pending.filter (fun kb => kb.1 ≠ key) })

end TopicDebouncer

end Takopi

namespace Takopi

namespace ExecBridge

/-- Minimal model of the values `json.loads` can produce for the fields
the bridge inspects. Python `None` (both a missing dict key via `.get`
and JSON `null`) is modelled as `JVal.null`; the two behave identically
under the truthiness tests and string comparisons the code performs.
JSON numbers are modelled as integers (only their truthiness and
string-inequality matter to the code). -/
inductive JVal where
  | null
  | bool (b : Bool)
  | str (s : String)
  | num (n : Int)
  | arr (elems : List JVal)
  | obj (fields : List (String × JVal))

/-- Python truthiness (`if not x`, `x or y`) on the modelled values. -/
def pyTruthy : JVal → Bool
  | .null => false
  | .bool b => b
  | .str s => !s.isEmpty
  | .num n => n != 0
  | .arr xs => !xs.isEmpty
  | .obj fs => !fs.isEmpty

/-- Models `dict.get(key)`: the value stored under `key`, or Python
`None` (here `JVal.null`) when absent. Keys of a parsed JSON object are
unique, so first match is the dict entry. -/
def getField : List (String × JVal) → String → JVal
  | [], _ => .null
  | (k, v) :: rest, key => if k = key then v else getField rest key

/-- Models Python `x == "<literal>"` for a value of unknown type: true
exactly when `x` is that string. -/
def isStr (v : JVal) (s : String) : Bool :=
  match v with
  | .str t => t = s
  | _ => false

/-- One line of the process's standard output after stripping: either it
was blank or failed `json.loads` (the code skips both), or it parsed to
a JSON object with the given fields. Lines parsing to a non-object JSON
value would make `evt.get` raise `AttributeError` in the source and are
outside this model's input domain. -/
inductive OutLine where
  | unparsable
  | event (fields : List (String × JVal))

/-- State of the stdout-consuming loop in `CodexExecRunner.run`:
`found_session` starts as the supplied `session_id` and `last_agent_text`
as `None`. `found_session` is typed as it behaves in Python — a
`thread.started` event may store any truthy JSON value in it. -/
structure LoopState where
  found_session : JVal
  last_agent_text : Option String

/-- Embeds one iteration of the `for line in proc.stdout` loop body.
Returns `none` when the source would raise `AttributeError`: an
`item.completed` event whose truthy `item` value is not an object. -/
def processLine (st : LoopState) (l : OutLine) : Option LoopState :=
  match l with
  | .unparsable => some st
  | .event fs =>
      let st1 :=
        if isStr (getField fs "type") "thread.started" then
          let tid := getField fs "thread_id"
          { st with found_session :=
              if pyTruthy tid then tid else st.found_session }
        else st
      if isStr (getField fs "type") "item.completed" then
        let itemv := getField fs "item"
        match (if pyTruthy itemv then itemv else JVal.obj []) with
        | .obj ifs =>
            if isStr (getField ifs "type") "agent_message" then
              match getField ifs "text" with
              | .str t => some { st1 with last_agent_text := some t }
              | _ => some st1
            else some st1
        | _ => none
      else some st1

/-- Runs the loop body over the whole stream. -/
def processLines (st : LoopState) : List OutLine → Option LoopState
  | [] => some st
  | l :: rest =>
      match processLine st l with
      | none => none
      | some st' => processLines st' rest

/-- A stream line on which the loop body would raise (truthy non-object
`item` value inside an `item.completed` event). -/
def lineCrashes (l : OutLine) : Bool :=
  match l with
  | .unparsable => false
  | .event fs =>
      isStr (getField fs "type") "item.completed" &&
      (let itemv := getField fs "item"
       pyTruthy itemv &&
         match itemv with
         | .obj _ => false
         | _ => true)

/-- A stream entirely inside the modelled event-schema domain: no line
raises in the loop body. -/
def crashFree (ls : List OutLine) : Bool :=
  ls.all (fun l => !lineCrashes l)

/-- Python truthiness of an `Optional[str]`. -/
def pyTruthyStrOpt (s : Option String) : Bool :=
  match s with
  | none => false
  | some t => !t.isEmpty

/-- Initial `found_session`: the supplied `session_id` (Python `None`
when absent). -/
def initSession (sid : Option String) : JVal :=
  match sid with
  | none => .null
  | some s => .str s

/-- Outcome of `CodexExecRunner.run`, naming the spec's error taxonomy:
`executionFailed` is the `RuntimeError("codex exec failed (rc=...)")`,
`missingSessionId` the `RuntimeError("... no session_id/thread_id was
captured")`, and `crash` an `AttributeError` escaping the loop. -/
inductive RunResult where
  | crash
  | executionFailed (rc : Int) (stderr_tail : String)
  | missingSessionId
  | ok (session : JVal) (reply : String)

/-- Embeds `"".join(stderr_lines[-200:])`: the bounded stderr tail kept
for diagnostics. -/
def stderrTail (lines : List String) : String :=
  String.join (lines.drop (lines.length - 200))

/-- The fixed placeholder substituted when no agent message was captured. -/
def noAgentMessagePlaceholder : String :=
  "(No agent_message captured from JSON stream.)"

/-- Embeds `last_agent_text or "(No agent_message captured ...)"`:
Python `or` also replaces an empty captured string by the placeholder. -/
def replyText (last : Option String) : String :=
  match last with
  | some t => if t.isEmpty then noAgentMessagePlaceholder else t
  | none => noAgentMessagePlaceholder

/-- Configuration of a `CodexExecRunner` (constructor arguments). -/
structure RunnerConfig where
  codex_cmd : String
  workspace : Option String
  extra_args : List String

/-- Embeds the argv construction in `run`: base command, extra args,
optional `--cd` (guarded by Python truthiness of `workspace`), then
either `resume <session_id> -` when the supplied id is truthy or `-`
for a new session. -/
def buildArgs (cfg : RunnerConfig) (session_id : Option String) :
    List String :=
  [cfg.codex_cmd, "exec", "--json"] ++ cfg.extra_args ++
    (match cfg.workspace with
     | some ws => if ws.isEmpty then [] else ["--cd", ws]
     | none => []) ++
    (if pyTruthyStrOpt session_id then
       ["resume", session_id.getD "", "-"]
     else ["-"])

/-- Embeds `CodexExecRunner.run` as a function of the supplied session
id, the parsed stdout stream, the drained stderr lines, and the process
exit code: consume the stream, then fail on non-zero exit, then fail when
no session is known, else return the session and the reply text. -/
def run (sid : Option String) (stdout_lines : List OutLine)
    (stderr_lines : List String) (rc : Int) : RunResult :=
  match processLines ⟨initSession sid, none⟩ stdout_lines with
  | none => .crash
  | some st =>
      if rc ≠ 0 then .executionFailed rc (stderrTail stderr_lines)
      else if !pyTruthy st.found_session then .missingSessionId
      else .ok st.found_session (replyText st.last_agent_text)

/-- Embeds the branch in `run_serialized`: `if not session_id` the call
goes straight to `run` with no lock; otherwise the per-session lock is
taken for the duration of the call. -/
def usesSessionLock (sid : Option String) : Bool :=
  pyTruthyStrOpt sid

end ExecBridge

end Takopi

namespace Takopi

namespace Locks

/-- Phase of one thread executing `CodexExecRunner.run_serialized`:
not yet entered, blocked acquiring its per-session lock, inside the
external-process invocation (`self.run`), or returned. -/
inductive Phase where
  | start
  | waitingLock
  | running
  | done
deriving DecidableEq, Repr

/-- Shared state of the executor's lock table and the threads: threads
are indexed by naturals; `sids` (fixed per execution, given to the step
relation) is the `session_id` argument each thread passed; `held s`
says whether the unique `threading.Lock` that `_lock_for(s)` returns is
currently held. `_lock_for` creates at most one lock per session id
(creation is guarded by `_locks_guard` and entries are never removed),
so keying `held` directly by the session id is faithful. -/
structure LockSystem where
  phases : Nat → Phase
  held : String → Bool

/-- Initial state: every thread is before its `run_serialized` call and
no per-session lock is held. -/
def initLS : LockSystem :=
  { phases := fun _ => .start, held := fun _ => false }

/-- Interleaving semantics of `run_serialized`. A thread whose
`session_id` is falsy (`None` or `""`) enters `self.run` directly with
no lock; a thread with a truthy id first obtains its session's lock
object, acquires it atomically when free (`with lock:`), runs, and
releases on exit. -/
inductive LockStep (sids : Nat → Option String) :
    LockSystem → LockSystem → Prop where
  | startNoLock (st : LockSystem) (i : Nat)
      (hp : st.phases i = .start)
      (hs : ExecBridge.pyTruthyStrOpt (sids i) = false) :
      LockStep sids st
        { st with phases := Function.update st.phases i .running }
  | startLock (st : LockSystem) (i : Nat)
      (hp : st.phases i = .start)
      (hs : ExecBridge.pyTruthyStrOpt (sids i) = true) :
      LockStep sids st
        { st with phases := Function.update st.phases i .waitingLock }
  | acquire (st : LockSystem) (i : Nat) (s : String)
      (hp : st.phases i = .waitingLock)
      (hs : sids i = some s)
      (hfree : st.held s = false) :
      LockStep sids st
        { phases := Function.update st.phases i .running,
          held := Function.update st.held s true }
  | finishNoLock (st : LockSystem) (i : Nat)
      (hp : st.phases i = .running)
      (hs : ExecBridge.pyTruthyStrOpt (sids i) = false) :
      LockStep sids st
        { st with phases := Function.update st.phases i .done }
  | finishLock (st : LockSystem) (i : Nat) (s : String)
      (hp : st.phases i = .running)
      (hs : sids i = some s)
      (ht : ExecBridge.pyTruthyStrOpt (sids i) = true) :
      LockStep sids st
        { phases := Function.update st.phases i .done,
          held := Function.update st.held s false }

/-- States reachable from the initial state by interleaved execution. -/
def Reach (sids : Nat → Option String) (st : LockSystem) : Prop :=
  Relation.ReflTransGen (LockStep sids) initLS st

/-- Inductive invariant: a thread inside the external invocation with a
truthy session id holds that session's lock, and no two distinct threads
with the same truthy session id are inside it simultaneously. -/
def LockInv (sids : Nat → Option String) (st : LockSystem) : Prop :=
  (∀ i s, st.phases i = .running → sids i = some s → s ≠ "" →
      st.held s = true) ∧
  (∀ i j s, i ≠ j → st.phases i = .running → st.phases j = .running →
      sids i = some s → sids j = some s → s ≠ "" → False)

end Locks

end Takopi

namespace Takopi

/-- Sequential composition of `add_message` calls (the state after a
sequence of arrivals; with a positive window every call returns `none`,
so only the state evolves). -/
def TopicDebouncer.addAll (d : TopicDebouncer) (ms : List PendingMessage) :
    TopicDebouncer :=
  ms.foldl (fun d' m => (d'.add_message m).2) d

/-- An observable event at the debouncer boundary: an arrival handed to
`add_message`, or an expiry poll `check_expired(now)`. -/
inductive Ev where
  | add (m : PendingMessage)
  | check (now : ℚ)

/-- Runs a sequence of boundary events against the debouncer, collecting
every batch it emits (from either `add_message` or `check_expired`), in
emission order. -/
def runTrace (d : TopicDebouncer) : List Ev → List MessageBatch × TopicDebouncer
  | [] => ([], d)
  | Ev.add m :: rest =>
      let r := d.add_message m
      let rr := runTrace r.2 rest
      (r.1.toList ++ rr.1, rr.2)
  | Ev.check now :: rest =>
      let r := d.check_expired now
      let rr := runTrace r.2 rest
      (r.1 ++ rr.1, rr.2)

/-- Event traces of a rapid-fire message sequence on one topic:
`Chain w k ms evs t` says `evs` consists of the arrivals `ms` (in order,
all with topic key `k`, timestamps nondecreasing, each strictly within
`w` of the previous), interleaved after the first arrival with expiry
polls that occur strictly before the deadline current at the time of the
poll (`t` is the last arrival's timestamp, so the current deadline is
`t + w`). Polls between arrivals happen at real times at most the next
arrival's timestamp, hence strictly below the current deadline. -/
inductive Chain (w : ℚ) (k : TopicKey) :
    List PendingMessage → List Ev → ℚ → Prop where
  | first (m : PendingMessage) (hk : (m.chat_id, m.thread_id) = k) :
      Chain w k [m] [Ev.add m] m.timestamp
  | addMsg (ms : List PendingMessage) (evs : List Ev) (t : ℚ)
      (m : PendingMessage) (h : Chain w k ms evs t)
      (hk : (m.chat_id, m.thread_id) = k)
      (hle : t ≤ m.timestamp) (hlt : m.timestamp < t + w) :
      Chain w k (ms ++ [m]) (evs ++ [Ev.add m]) m.timestamp
  | checkEv (ms : List PendingMessage) (evs : List Ev) (t : ℚ) (now : ℚ)
      (h : Chain w k ms evs t) (hnow : now < t + w) :
      Chain w k ms (evs ++ [Ev.check now]) t

namespace ExecBridge

/-- A stream line that assigns a new session in the loop: a
`thread.started` event with a truthy `thread_id` value. -/
def setsSession (l : OutLine) : Bool :=
  match l with
  | .unparsable => false
  | .event fs =>
      isStr (getField fs "type") "thread.started" &&
      pyTruthy (getField fs "thread_id")

/-- Whether any line of the stream reported a session id. -/
def observedSession (ls : List OutLine) : Bool :=
  ls.any setsSession

/-- The agent-message text a stream line carries, when it is an
`item.completed` event whose item is an `agent_message` with a string
`text` (the exact condition under which the loop records a reply). -/
def agentTextOf (l : OutLine) : Option String :=
  match l with
  | .unparsable => none
  | .event fs =>
      if isStr (getField fs "type") "item.completed" then
        match (if pyTruthy (getField fs "item") then getField fs "item"
               else JVal.obj []) with
        | .obj ifs =>
            if isStr (getField ifs "type") "agent_message" then
              match getField ifs "text" with
              | .str t => some t
              | _ => none
            else none
        | _ => none
      else none

/-- The text of the last agent-message event on the stream, if any. -/
def lastAgentText (ls : List OutLine) : Option String :=
  (ls.filterMap agentTextOf).getLast?

/-- A stream line the loop skips without any effect: unparsable, or an
event whose `type` is neither of the two recognized values. -/
def skippable (l : OutLine) : Bool :=
  match l with
  | .unparsable => true
  | .event fs =>
      !(isStr (getField fs "type") "thread.started") &&
      !(isStr (getField fs "type") "item.completed")

/-- A well-formed session-assignment line as the bridge actually emits
and consumes it: type `thread.started`, id under `thread_id`. -/
def threadStartedLine (s : String) : OutLine :=
  .event [("type", .str "thread.started"), ("thread_id", .str s)]

/-- A well-formed agent-message completion line. -/
def agentMessageLine (t : String) : OutLine :=
  .event [("type", .str "item.completed"),
          ("item", .obj [("type", .str "agent_message"), ("text", .str t)])]

/-- The value a session-assignment line stores into `found_session`
(the line's `thread_id` field). -/
def sessionValOf (l : OutLine) : JVal :=
  match l with
  | .unparsable => .null
  | .event fs => getField fs "thread_id"

/-- The session-start line in the shape the spec's event-stream schema
describes: type `session.started`, id under `session_id`. -/
def sessionStartedLine (s : String) : OutLine :=
  .event [("type", .str "session.started"), ("session_id", .str s)]

end ExecBridge

end Takopi

namespace Takopi

/-- C9: with a zero window, `add_message` returns a single-message batch
immediately — combined text is the message's text, both ids are the
message's id, the routing fields are the message's — and leaves the
pending state untouched. -/
theorem claim_C9 (d : TopicDebouncer) (msg : PendingMessage)
    (hw : d.window_s = 0) :
    (d.add_message msg).2 = d ∧
    (d.add_message msg).1 =
      some { chat_id := msg.chat_id, first_msg_id := msg.user_msg_id,
             last_msg_id := msg.user_msg_id, combined_text := msg.text,
             resume_token := msg.resume_token, context := msg.context,
             thread_id := msg.thread_id,
             engine_override := msg.engine_override } := by
  simp [TopicDebouncer.add_message, hw]

/-- Witness for C9 at a concrete debouncer and message. -/
theorem claim_C9_witness :
    ((TopicDebouncer.init 0).add_message
        ⟨7, 42, "hello", none, none, some 3, some "codex", 5⟩).2 =
      TopicDebouncer.init 0 ∧
    ((TopicDebouncer.init 0).add_message
        ⟨7, 42, "hello", none, none, some 3, some "codex", 5⟩).1 =
      some ⟨7, 42, 42, "hello", none, none, some 3, some "codex"⟩ :=
  claim_C9 _ _ (by norm_num [TopicDebouncer.init])

/-- C8: `flush_all` clears all pending state — afterwards a second
`flush_all` returns an empty result on the unchanged state and
`next_deadline` is `none` — and, whenever every pending batch is
nonempty (true in every reachable state), it returns exactly one
finalized batch per pending topic, in dict order. -/
theorem claim_C8 (d : TopicDebouncer) :
    (d.flush_all.2).pending = [] ∧
    (d.flush_all.2).flush_all = ([], d.flush_all.2) ∧
    (d.flush_all.2).next_deadline = none ∧
    ((∀ kb ∈ d.pending, kb.2.messages ≠ []) →
      d.flush_all.1 =
        d.pending.map (fun kb => TopicDebouncer.finalize_batch kb.2) ∧
      d.flush_all.1.length = d.pending.length) := by
  refine ⟨rfl, rfl, rfl, fun h => ?_⟩
  have hf : d.pending.filter (fun kb => !kb.2.messages.isEmpty) = d.pending := by
    rw [List.filter_eq_self]
    intro kb hkb
    simpa using h kb hkb
  constructor
  · simp [TopicDebouncer.flush_all, hf]
  · simp [TopicDebouncer.flush_all, hf]

/-- Witness for C8 at a concrete state with one pending topic. -/
theorem claim_C8_witness :
    ((TopicDebouncer.mk 1
        [((7, none), ⟨[⟨7, 1, "a", none, none, none, none, 0⟩], 1⟩)]).flush_all.2).pending = [] ∧
    ((TopicDebouncer.mk 1
        [((7, none), ⟨[⟨7, 1, "a", none, none, none, none, 0⟩], 1⟩)]).flush_all.1).length =
      ([((7, none), ⟨[⟨7, 1, "a", none, none, none, none, 0⟩], 1⟩)] :
        List (TopicKey × PendingBatch)).length := by
  have h := claim_C8 (TopicDebouncer.mk 1
    [((7, none), ⟨[⟨7, 1, "a", none, none, none, none, 0⟩], 1⟩)])
  exact ⟨h.1, (h.2.2.2 (by simp)).2⟩

end Takopi

namespace Takopi

/-- C7: every finalized batch, on every exit path — expiry
(`check_expired`), `flush_topic`, `flush_all`, and the window-zero path
of `add_message` — takes its resume token, context, and engine override
from the chronologically first contributing message (the head of the
arrival-ordered message list), regardless of later messages. -/
theorem claim_C7 :
    (∀ (b : PendingBatch) (m : PendingMessage) (rest : List PendingMessage),
        b.messages = m :: rest →
        (TopicDebouncer.finalize_batch b).resume_token = m.resume_token ∧
        (TopicDebouncer.finalize_batch b).context = m.context ∧
        (TopicDebouncer.finalize_batch b).engine_override = m.engine_override) ∧
    (∀ (d : TopicDebouncer) (now : ℚ) (bb : MessageBatch),
        bb ∈ (d.check_expired now).1 →
        ∃ kb ∈ d.pending, bb = TopicDebouncer.finalize_batch kb.2) ∧
    (∀ (d : TopicDebouncer) (bb : MessageBatch),
        bb ∈ d.flush_all.1 →
        ∃ kb ∈ d.pending, bb = TopicDebouncer.finalize_batch kb.2) ∧
    (∀ (d : TopicDebouncer) (k : TopicKey) (bb : MessageBatch),
        (d.flush_topic k).1 = some bb →
        ∃ b, TopicDebouncer.lookupKey d.pending k = some b ∧
          bb = TopicDebouncer.finalize_batch b) ∧
    (∀ (d : TopicDebouncer) (msg : PendingMessage) (bb : MessageBatch),
        (d.add_message msg).1 = some bb →
        bb.resume_token = msg.resume_token ∧ bb.context = msg.context ∧
        bb.engine_override = msg.engine_override) := by
  refine ⟨?_, ?_, ?_, ?_, ?_⟩
  · intro b m rest hb
    simp [TopicDebouncer.finalize_batch, hb]
  · intro d now bb hbb
    simp only [TopicDebouncer.check_expired, List.mem_map, List.mem_filter] at hbb
    obtain ⟨kb, ⟨hmem, _⟩, rfl⟩ := hbb
    exact ⟨kb, hmem, rfl⟩
  · intro d bb hbb
    simp only [TopicDebouncer.flush_all, List.mem_map, List.mem_filter] at hbb
    obtain ⟨kb, ⟨hmem, _⟩, rfl⟩ := hbb
    exact ⟨kb, hmem, rfl⟩
  · intro d k bb hbb
    unfold TopicDebouncer.flush_topic at hbb
    cases hlk : TopicDebouncer.lookupKey d.pending k with
    | none => rw [hlk] at hbb; simp at hbb
    | some b =>
        rw [hlk] at hbb
        by_cases hemp : b.messages.isEmpty
        · simp [hemp] at hbb
        · simp only [hemp] at hbb
          simp at hbb
          exact ⟨b, rfl, hbb.symm⟩
  · intro d msg bb hbb
    unfold TopicDebouncer.add_message at hbb
    by_cases hw : d.window_s ≤ 0
    · rw [if_pos hw] at hbb
      simp at hbb
      subst hbb
      exact ⟨rfl, rfl, rfl⟩
    · rw [if_neg hw] at hbb
      rcases hlk : TopicDebouncer.lookupKey d.pending (msg.chat_id, msg.thread_id) with _ | b
      · simp only [hlk] at hbb; simp at hbb
      · simp only [hlk] at hbb; simp at hbb

/-- Witness for C7: finalizing a two-message batch whose second message
carries different routing hints keeps the first message's hints. -/
theorem claim_C7_witness :
    (TopicDebouncer.finalize_batch
        ⟨[⟨7, 1, "a", some ⟨"codex", "s1"⟩, some ⟨some "p", none⟩, none, some "codex", 0⟩,
          ⟨7, 2, "b", some ⟨"claude", "s2"⟩, some ⟨some "q", none⟩, none, some "claude", 1⟩],
          2⟩).resume_token = some ⟨"codex", "s1"⟩ ∧
    (TopicDebouncer.finalize_batch
        ⟨[⟨7, 1, "a", some ⟨"codex", "s1"⟩, some ⟨some "p", none⟩, none, some "codex", 0⟩,
          ⟨7, 2, "b", some ⟨"claude", "s2"⟩, some ⟨some "q", none⟩, none, some "claude", 1⟩],
          2⟩).context = some ⟨some "p", none⟩ ∧
    (TopicDebouncer.finalize_batch
        ⟨[⟨7, 1, "a", some ⟨"codex", "s1"⟩, some ⟨some "p", none⟩, none, some "codex", 0⟩,
          ⟨7, 2, "b", some ⟨"claude", "s2"⟩, some ⟨some "q", none⟩, none, some "claude", 1⟩],
          2⟩).engine_override = some "codex" :=
  claim_C7.1
    ⟨[⟨7, 1, "a", some ⟨"codex", "s1"⟩, some ⟨some "p", none⟩, none, some "codex", 0⟩,
      ⟨7, 2, "b", some ⟨"claude", "s2"⟩, some ⟨some "q", none⟩, none, some "claude", 1⟩],
      2⟩
    ⟨7, 1, "a", some ⟨"codex", "s1"⟩, some ⟨some "p", none⟩, none, some "codex", 0⟩
    [⟨7, 2, "b", some ⟨"claude", "s2"⟩, some ⟨some "q", none⟩, none, some "claude", 1⟩]
    rfl

end Takopi

namespace Takopi

theorem add_message_empty_pending (w : ℚ) (m : PendingMessage) (hw : 0 < w) :
    TopicDebouncer.add_message ⟨w, []⟩ m =
      (none, ⟨w, [((m.chat_id, m.thread_id), ⟨[m], m.timestamp + w⟩)]⟩) := by
  simp [TopicDebouncer.add_message, TopicDebouncer.lookupKey, not_le.mpr hw]

theorem add_message_single_topic (w : ℚ) (k : TopicKey)
    (acc : List PendingMessage) (dl : ℚ) (m : PendingMessage)
    (hw : 0 < w) (hk : (m.chat_id, m.thread_id) = k) :
    TopicDebouncer.add_message ⟨w, [(k, ⟨acc, dl⟩)]⟩ m =
      (none, ⟨w, [(k, ⟨acc ++ [m], m.timestamp + w⟩)]⟩) := by
  simp [TopicDebouncer.add_message, TopicDebouncer.lookupKey,
    TopicDebouncer.updateKey, not_le.mpr hw, hk]

theorem check_expired_single_before (w : ℚ) (k : TopicKey)
    (msgs : List PendingMessage) (dl now : ℚ) (h : now < dl) :
    TopicDebouncer.check_expired ⟨w, [(k, ⟨msgs, dl⟩)]⟩ now =
      ([], ⟨w, [(k, ⟨msgs, dl⟩)]⟩) := by
  simp [TopicDebouncer.check_expired, TopicDebouncer.isExpired, not_le.mpr h]

theorem check_expired_single_fire (w : ℚ) (k : TopicKey)
    (msgs : List PendingMessage) (dl now : ℚ) (h : dl ≤ now) (hne : msgs ≠ []) :
    TopicDebouncer.check_expired ⟨w, [(k, ⟨msgs, dl⟩)]⟩ now =
      ([TopicDebouncer.finalize_batch ⟨msgs, dl⟩], ⟨w, []⟩) := by
  simp [TopicDebouncer.check_expired, TopicDebouncer.isExpired, h,
    List.isEmpty_iff, hne]

theorem addAll_single_topic (w : ℚ) (k : TopicKey) (hw : 0 < w) :
    ∀ (ms acc : List PendingMessage) (dl : ℚ),
      (∀ m ∈ ms, (m.chat_id, m.thread_id) = k) →
      TopicDebouncer.addAll ⟨w, [(k, ⟨acc, dl⟩)]⟩ ms =
        ⟨w, [(k, ⟨acc ++ ms,
          ms.getLast?.elim dl (fun mL => mL.timestamp + w)⟩)]⟩ := by
  intro ms
  induction ms with
  | nil => intro acc dl _; simp [TopicDebouncer.addAll]
  | cons m rest ih =>
      intro acc dl hkeys
      have hk : (m.chat_id, m.thread_id) = k := hkeys m (by simp)
      have step := add_message_single_topic w k acc dl m hw hk
      have : TopicDebouncer.addAll ⟨w, [(k, ⟨acc, dl⟩)]⟩ (m :: rest) =
          TopicDebouncer.addAll ⟨w, [(k, ⟨acc ++ [m], m.timestamp + w⟩)]⟩ rest := by
        simp [TopicDebouncer.addAll, step]
      rw [this, ih (acc ++ [m]) (m.timestamp + w)
        (fun m' hm' => hkeys m' (by simp [hm']))]
      cases rest with
      | nil => simp
      | cons r rs =>
          rcases hgl : (r :: rs).getLast? with _ | mL
          · exact absurd (List.getLast?_eq_none_iff.mp hgl) (by simp)
          · simp [List.getLast?_cons_cons, hgl]

theorem addAll_from_init (w : ℚ) (k : TopicKey) (hw : 0 < w)
    (m : PendingMessage) (rest : List PendingMessage)
    (hkeys : ∀ m' ∈ m :: rest, (m'.chat_id, m'.thread_id) = k) :
    TopicDebouncer.addAll ⟨w, []⟩ (m :: rest) =
      ⟨w, [(k, ⟨m :: rest,
        (m :: rest).getLast?.elim 0 (fun mL => mL.timestamp + w)⟩)]⟩ := by
  have hk : (m.chat_id, m.thread_id) = k := hkeys m (by simp)
  have step := add_message_empty_pending w m hw
  have h1 : TopicDebouncer.addAll ⟨w, []⟩ (m :: rest) =
      TopicDebouncer.addAll ⟨w, [(k, ⟨[m], m.timestamp + w⟩)]⟩ rest := by
    simp [TopicDebouncer.addAll, step, hk]
  rw [h1, addAll_single_topic w k hw rest [m] (m.timestamp + w)
    (fun m' hm' => hkeys m' (by simp [hm']))]
  cases rest with
  | nil => simp
  | cons r rs =>
      rcases hgl : (r :: rs).getLast? with _ | mL
      · exact absurd (List.getLast?_eq_none_iff.mp hgl) (by simp)
      · simp [List.getLast?_cons_cons, hgl]

end Takopi

namespace Takopi

/-- C6: after any sequence of arrivals to a single topic with a positive
window, `next_deadline` is the last arrival's timestamp plus the window
(each arrival overwrote the previous deadline); `check_expired(now)`
returns nothing and changes nothing for every `now` strictly before that
deadline, and returns exactly that topic's batch, emptying the pending
state, for every `now` at or after it. -/
theorem claim_C6 (w : ℚ) (k : TopicKey) (ms : List PendingMessage)
    (mL : PendingMessage) (hw : 0 < w)
    (hkeys : ∀ m ∈ ms, (m.chat_id, m.thread_id) = k)
    (hlast : ms.getLast? = some mL) :
    (TopicDebouncer.addAll ⟨w, []⟩ ms).next_deadline =
      some (mL.timestamp + w) ∧
    (∀ now, now < mL.timestamp + w →
      (TopicDebouncer.addAll ⟨w, []⟩ ms).check_expired now =
        ([], TopicDebouncer.addAll ⟨w, []⟩ ms)) ∧
    (∀ now, mL.timestamp + w ≤ now →
      (TopicDebouncer.addAll ⟨w, []⟩ ms).check_expired now =
        ([TopicDebouncer.finalize_batch ⟨ms, mL.timestamp + w⟩],
         ⟨w, []⟩)) := by
  obtain ⟨m, rest, rfl⟩ : ∃ m rest, ms = m :: rest := by
    cases ms with
    | nil => simp at hlast
    | cons a l => exact ⟨a, l, rfl⟩
  have hstate := addAll_from_init w k hw m rest hkeys
  rw [hlast] at hstate
  simp only [Option.elim] at hstate
  refine ⟨?_, ?_, ?_⟩
  · rw [hstate]
    simp [TopicDebouncer.next_deadline]
  · intro now hnow
    rw [hstate]
    exact check_expired_single_before w k (m :: rest) (mL.timestamp + w) now hnow
  · intro now hnow
    rw [hstate]
    exact check_expired_single_fire w k (m :: rest) (mL.timestamp + w) now hnow
      (by simp)

/-- Witness for C6: two arrivals at times 0 and 1/2 with window 1;
the deadline is 3/2, a poll at 1 returns nothing, a poll at 3/2 returns
the topic's batch. -/
theorem claim_C6_witness :
    (TopicDebouncer.addAll ⟨1, []⟩
        [⟨7, 1, "a", none, none, none, none, 0⟩,
         ⟨7, 2, "b", none, none, none, none, 1/2⟩]).next_deadline =
      some ((1 : ℚ)/2 + 1) ∧
    (TopicDebouncer.addAll ⟨1, []⟩
        [⟨7, 1, "a", none, none, none, none, 0⟩,
         ⟨7, 2, "b", none, none, none, none, 1/2⟩]).check_expired 1 =
      ([], TopicDebouncer.addAll ⟨1, []⟩
        [⟨7, 1, "a", none, none, none, none, 0⟩,
         ⟨7, 2, "b", none, none, none, none, 1/2⟩]) ∧
    (TopicDebouncer.addAll ⟨1, []⟩
        [⟨7, 1, "a", none, none, none, none, 0⟩,
         ⟨7, 2, "b", none, none, none, none, 1/2⟩]).check_expired (3/2) =
      ([TopicDebouncer.finalize_batch
          ⟨[⟨7, 1, "a", none, none, none, none, 0⟩,
            ⟨7, 2, "b", none, none, none, none, 1/2⟩], 1/2 + 1⟩],
       ⟨1, []⟩) := by
  have h := claim_C6 1 (7, none)
    [⟨7, 1, "a", none, none, none, none, 0⟩,
     ⟨7, 2, "b", none, none, none, none, 1/2⟩]
    ⟨7, 2, "b", none, none, none, none, 1/2⟩
    (by norm_num) (by intro m hm; fin_cases hm <;> rfl) rfl
  exact ⟨h.1, h.2.1 1 (by norm_num), h.2.2 (3/2) (by norm_num)⟩

end Takopi

namespace Takopi

theorem runTrace_append (d : TopicDebouncer) (l1 l2 : List Ev) :
    runTrace d (l1 ++ l2) =
      ((runTrace d l1).1 ++ (runTrace (runTrace d l1).2 l2).1,
       (runTrace (runTrace d l1).2 l2).2) := by
  induction l1 generalizing d with
  | nil => simp [runTrace]
  | cons e rest ih =>
      cases e with
      | add m => simp [runTrace, ih]
      | check now => simp [runTrace, ih]

theorem chain_ne_nil {w : ℚ} {k : TopicKey} {ms : List PendingMessage}
    {evs : List Ev} {t : ℚ} (hc : Chain w k ms evs t) : ms ≠ [] := by
  induction hc with
  | first m hk => simp
  | addMsg ms evs t m h hk hle hlt ih => simp
  | checkEv ms evs t now h hnow ih => exact ih

theorem chain_state {w : ℚ} {k : TopicKey} {ms : List PendingMessage}
    {evs : List Ev} {t : ℚ} (hw : 0 < w) (hc : Chain w k ms evs t) :
    runTrace ⟨w, []⟩ evs = ([], ⟨w, [(k, ⟨ms, t + w⟩)]⟩) := by
  induction hc with
  | first m hk =>
      simp [runTrace, add_message_empty_pending w m hw, hk]
  | addMsg ms evs t m h hk hle hlt ih =>
      rw [runTrace_append, ih]
      simp [runTrace, add_message_single_topic w k ms (t + w) m hw hk]
  | checkEv ms evs t now h hnow ih =>
      rw [runTrace_append, ih]
      simp [runTrace, check_expired_single_before w k ms (t + w) now hnow]

/-- C2: for a nonempty rapid-fire sequence on one topic — each arrival
strictly within the window of the previous one, expiry polls interleaved
at times before the deadline current at that moment — the debouncer
emits exactly one batch over the whole trace once a poll at or after the
final deadline occurs; its combined text is the newline join of the
texts in arrival order and its first/last ids are the first/last
arrivals' ids. -/
theorem claim_C2 (w : ℚ) (k : TopicKey) (ms : List PendingMessage)
    (evs : List Ev) (t nowF : ℚ) (hw : 0 < w)
    (hc : Chain w k ms evs t) (hend : t + w ≤ nowF) :
    (runTrace ⟨w, []⟩ (evs ++ [Ev.check nowF])).1 =
      [TopicDebouncer.finalize_batch ⟨ms, t + w⟩] ∧
    (TopicDebouncer.finalize_batch ⟨ms, t + w⟩).combined_text =
      String.intercalate "\n" (ms.map (fun m => m.text)) ∧
    (∀ m0, ms.head? = some m0 →
      (TopicDebouncer.finalize_batch ⟨ms, t + w⟩).first_msg_id =
        m0.user_msg_id) ∧
    (∀ mL, ms.getLast? = some mL →
      (TopicDebouncer.finalize_batch ⟨ms, t + w⟩).last_msg_id =
        mL.user_msg_id) := by
  have hne := chain_ne_nil hc
  obtain ⟨m0, rest, rfl⟩ : ∃ m0 rest, ms = m0 :: rest := by
    cases ms with
    | nil => exact absurd rfl hne
    | cons a l => exact ⟨a, l, rfl⟩
  refine ⟨?_, ?_, ?_, ?_⟩
  · rw [runTrace_append, chain_state hw hc]
    simp [runTrace,
      check_expired_single_fire w k (m0 :: rest) (t + w) nowF hend (by simp)]
  · simp [TopicDebouncer.finalize_batch]
  · intro m0' hm0'
    simp only [List.head?_cons, Option.some.injEq] at hm0'
    subst hm0'
    simp [TopicDebouncer.finalize_batch]
  · intro mL hmL
    simp [TopicDebouncer.finalize_batch, hmL]

end Takopi

namespace Takopi

/-- Witness for C2: arrivals "a"@0 and "b"@1/2 with window 1 and an
interleaved poll at 1/4; the poll emits nothing, and the final poll at 2
emits the single combined batch "a\nb" with ids 1 and 2. -/
theorem claim_C2_witness :
    (runTrace ⟨1, []⟩
        [Ev.add ⟨7, 1, "a", none, none, none, none, 0⟩,
         Ev.check (1/4),
         Ev.add ⟨7, 2, "b", none, none, none, none, 1/2⟩,
         Ev.check 2]).1 =
      [TopicDebouncer.finalize_batch
        ⟨[⟨7, 1, "a", none, none, none, none, 0⟩,
          ⟨7, 2, "b", none, none, none, none, 1/2⟩], 1/2 + 1⟩] ∧
    (TopicDebouncer.finalize_batch
        ⟨[⟨7, 1, "a", none, none, none, none, 0⟩,
          ⟨7, 2, "b", none, none, none, none, 1/2⟩], 1/2 + 1⟩).combined_text =
      "a\nb" ∧
    (TopicDebouncer.finalize_batch
        ⟨[⟨7, 1, "a", none, none, none, none, 0⟩,
          ⟨7, 2, "b", none, none, none, none, 1/2⟩], 1/2 + 1⟩).first_msg_id = 1 ∧
    (TopicDebouncer.finalize_batch
        ⟨[⟨7, 1, "a", none, none, none, none, 0⟩,
          ⟨7, 2, "b", none, none, none, none, 1/2⟩], 1/2 + 1⟩).last_msg_id = 2 := by
  have c1 : Chain 1 (7, none)
      [⟨7, 1, "a", none, none, none, none, 0⟩]
      [Ev.add ⟨7, 1, "a", none, none, none, none, 0⟩] 0 :=
    Chain.first _ rfl
  have c2 : Chain 1 (7, none)
      [⟨7, 1, "a", none, none, none, none, 0⟩]
      ([Ev.add ⟨7, 1, "a", none, none, none, none, 0⟩] ++ [Ev.check (1/4)]) 0 :=
    Chain.checkEv _ _ _ _ c1 (by norm_num)
  have c3 : Chain 1 (7, none)
      ([⟨7, 1, "a", none, none, none, none, 0⟩] ++
        [⟨7, 2, "b", none, none, none, none, 1/2⟩])
      (([Ev.add ⟨7, 1, "a", none, none, none, none, 0⟩] ++ [Ev.check (1/4)]) ++
        [Ev.add ⟨7, 2, "b", none, none, none, none, 1/2⟩]) (1/2) :=
    Chain.addMsg _ _ _ _ c2 rfl (by norm_num) (by norm_num)
  have h := claim_C2 1 (7, none) _ _ (1/2) 2 (by norm_num) c3 (by norm_num)
  refine ⟨h.1, ?_, ?_, ?_⟩
  · exact h.2.1.trans (by rfl)
  · exact h.2.2.1 _ rfl
  · exact h.2.2.2 _ rfl

end Takopi

namespace Takopi
namespace ExecBridge

theorem isStr_iff (v : JVal) (s : String) : isStr v s = true ↔ v = .str s := by
  cases v <;> simp [isStr]

theorem processLine_char (st : LoopState) (l : OutLine) :
    processLine st l =
      (if lineCrashes l then none
       else some
        { found_session :=
            if setsSession l then sessionValOf l else st.found_session,
          last_agent_text :=
            (agentTextOf l).elim st.last_agent_text some }) := by
  cases l with
  | unparsable => rfl
  | event fs =>
      by_cases h1 : isStr (getField fs "type") "thread.started"
      · have hv : getField fs "type" = .str "thread.started" :=
          (isStr_iff _ _).mp h1
        have h2 : isStr (getField fs "type") "item.completed" = false := by
          rw [hv]; rfl
        by_cases h3 : pyTruthy (getField fs "thread_id") <;>
          simp [processLine, lineCrashes, setsSession, agentTextOf,
            sessionValOf, h1, h2, h3]
      · by_cases h2 : isStr (getField fs "type") "item.completed"
        · by_cases h4 : pyTruthy (getField fs "item")
          · cases hv : getField fs "item" with
            | obj ifs =>
                rw [hv] at h4
                by_cases h5 : isStr (getField ifs "type") "agent_message"
                · cases ht : getField ifs "text" <;>
                    simp [processLine, lineCrashes, setsSession, agentTextOf,
                      sessionValOf, h1, h2, h4, h5, hv, ht]
                · simp [processLine, lineCrashes, setsSession, agentTextOf,
                    sessionValOf, h1, h2, h4, h5, hv]
            | null => rw [hv] at h4; simp [pyTruthy] at h4
            | bool b =>
                rw [hv] at h4
                simp [processLine, lineCrashes, setsSession, agentTextOf,
                  sessionValOf, h1, h2, h4, hv]
            | str t =>
                rw [hv] at h4
                simp [processLine, lineCrashes, setsSession, agentTextOf,
                  sessionValOf, h1, h2, h4, hv]
            | num n =>
                rw [hv] at h4
                simp [processLine, lineCrashes, setsSession, agentTextOf,
                  sessionValOf, h1, h2, h4, hv]
            | arr xs =>
                rw [hv] at h4
                simp [processLine, lineCrashes, setsSession, agentTextOf,
                  sessionValOf, h1, h2, h4, hv]
          · have hg : getField ([] : List (String × JVal)) "type" = JVal.null :=
              rfl
            have hi : isStr JVal.null "agent_message" = false := rfl
            simp [processLine, lineCrashes, setsSession, agentTextOf,
              sessionValOf, h1, h2, h4, hg, hi]
        · simp [processLine, lineCrashes, setsSession, agentTextOf,
            sessionValOf, h1, h2]

theorem setsSession_truthy (l : OutLine) (h : setsSession l = true) :
    pyTruthy (sessionValOf l) = true := by
  cases l with
  | unparsable => simp [setsSession] at h
  | event fs =>
      simp only [setsSession, Bool.and_eq_true] at h
      simpa [sessionValOf] using h.2

theorem processLines_append (l1 l2 : List OutLine) : ∀ st : LoopState,
    processLines st (l1 ++ l2) =
      (processLines st l1).bind (fun st' => processLines st' l2) := by
  induction l1 with
  | nil => intro st; simp [processLines]
  | cons l rest ih =>
      intro st
      simp only [List.cons_append, processLines]
      cases processLine st l with
      | none => rfl
      | some st1 => exact ih st1

theorem crashFree_processLines (ls : List OutLine) : ∀ st : LoopState,
    crashFree ls = true → ∃ st', processLines st ls = some st' := by
  induction ls with
  | nil => intro st _; exact ⟨st, rfl⟩
  | cons l rest ih =>
      intro st hcf
      simp only [crashFree, List.all_cons, Bool.and_eq_true] at hcf
      have hc : lineCrashes l = false := by
        simpa using hcf.1
      obtain ⟨st', h'⟩ := ih _ (by simpa [crashFree] using hcf.2)
      refine ⟨st', ?_⟩
      simp only [processLines, processLine_char, hc, if_false, Bool.false_eq_true]
      exact h'

theorem truthy_after (ls : List OutLine) : ∀ st st' : LoopState,
    processLines st ls = some st' →
    pyTruthy st'.found_session =
      (pyTruthy st.found_session || observedSession ls) := by
  induction ls with
  | nil =>
      intro st st' h
      simp only [processLines, Option.some.injEq] at h
      subst h
      simp [observedSession]
  | cons l rest ih =>
      intro st st' h
      simp only [processLines, processLine_char] at h
      by_cases hc : lineCrashes l
      · simp [hc] at h
      · simp only [hc, if_false, Bool.false_eq_true] at h
        have := ih _ _ h
        rw [this]
        by_cases hs : setsSession l
        · simp [hs, setsSession_truthy l hs, observedSession]
        · simp [hs, observedSession]

theorem found_const (ls : List OutLine) : ∀ st st' : LoopState,
    processLines st ls = some st' → (∀ l ∈ ls, setsSession l = false) →
    st'.found_session = st.found_session := by
  induction ls with
  | nil =>
      intro st st' h _
      simp only [processLines, Option.some.injEq] at h
      subst h; rfl
  | cons l rest ih =>
      intro st st' h hall
      simp only [processLines, processLine_char] at h
      by_cases hc : lineCrashes l
      · simp [hc] at h
      · simp only [hc, if_false, Bool.false_eq_true] at h
        have hs : setsSession l = false := hall l (by simp)
        rw [hs] at h
        simp only [Bool.false_eq_true, if_false] at h
        have := ih _ _ h (fun l' hl' => hall l' (by simp [hl']))
        simpa using this

theorem last_after (ls : List OutLine) : ∀ st st' : LoopState,
    processLines st ls = some st' →
    st'.last_agent_text =
      (ls.filterMap agentTextOf).getLast?.elim st.last_agent_text some := by
  induction ls with
  | nil =>
      intro st st' h
      simp only [processLines, Option.some.injEq] at h
      subst h; rfl
  | cons l rest ih =>
      intro st st' h
      simp only [processLines, processLine_char] at h
      by_cases hc : lineCrashes l
      · simp [hc] at h
      · simp only [hc, if_false, Bool.false_eq_true] at h
        have hst' := ih _ _ h
        cases ha : agentTextOf l with
        | none =>
            rw [List.filterMap_cons_none ha]
            simpa [ha] using hst'
        | some a =>
            rw [List.filterMap_cons_some ha]
            cases hr : (rest.filterMap agentTextOf).getLast? with
            | none =>
                have : rest.filterMap agentTextOf = [] :=
                  List.getLast?_eq_none_iff.mp hr
                rw [this]
                simp only [List.getLast?_singleton, Option.elim]
                rw [hst', hr]
                simp [ha]
            | some t =>
                have hne : rest.filterMap agentTextOf ≠ [] := by
                  intro hemp; rw [hemp] at hr; simp at hr
                obtain ⟨y, ys, hyy⟩ :
                    ∃ y ys, rest.filterMap agentTextOf = y :: ys := by
                  cases hx : rest.filterMap agentTextOf with
                  | nil => exact absurd hx hne
                  | cons y ys => exact ⟨y, ys, rfl⟩
                rw [hyy, List.getLast?_cons_cons]
                rw [hst', hr]
                rw [hyy] at hr
                simp [hr]

theorem pyTruthy_initSession (sid : Option String) :
    pyTruthy (initSession sid) = pyTruthyStrOpt sid := by
  cases sid <;> rfl

theorem skippable_processLine (st : LoopState) (l : OutLine)
    (h : skippable l = true) : processLine st l = some st := by
  cases l with
  | unparsable => rfl
  | event fs =>
      simp only [skippable, Bool.and_eq_true, Bool.not_eq_true'] at h
      rw [processLine_char]
      have hc : lineCrashes (.event fs) = false := by
        simp [lineCrashes, h.2]
      have hsets : setsSession (.event fs) = false := by
        simp [setsSession, h.1]
      have hat : agentTextOf (.event fs) = none := by
        simp [agentTextOf, h.2]
      simp [hc, hsets, hat]

theorem processLines_falsy_pair (ls : List OutLine) :
    ∀ st1 st2 : LoopState,
    st1.last_agent_text = st2.last_agent_text →
    pyTruthy st1.found_session = pyTruthy st2.found_session →
    (pyTruthy st1.found_session = true →
      st1.found_session = st2.found_session) →
    (processLines st1 ls = none ∧ processLines st2 ls = none) ∨
    (∃ st1' st2', processLines st1 ls = some st1' ∧
      processLines st2 ls = some st2' ∧
      st1'.last_agent_text = st2'.last_agent_text ∧
      pyTruthy st1'.found_session = pyTruthy st2'.found_session ∧
      (pyTruthy st1'.found_session = true →
        st1'.found_session = st2'.found_session)) := by
  induction ls with
  | nil =>
      intro st1 st2 hl ht hf
      exact Or.inr ⟨st1, st2, rfl, rfl, hl, ht, hf⟩
  | cons l rest ih =>
      intro st1 st2 hl ht hf
      by_cases hc : lineCrashes l
      · left
        constructor <;> simp [processLines, processLine_char, hc]
      · have h1 : processLine st1 l = some
            ⟨if setsSession l then sessionValOf l else st1.found_session,
             (agentTextOf l).elim st1.last_agent_text some⟩ := by
          rw [processLine_char]; simp [hc]
        have h2 : processLine st2 l = some
            ⟨if setsSession l then sessionValOf l else st2.found_session,
             (agentTextOf l).elim st2.last_agent_text some⟩ := by
          rw [processLine_char]; simp [hc]
        have hl' : ((agentTextOf l).elim st1.last_agent_text some) =
            ((agentTextOf l).elim st2.last_agent_text some) := by
          rw [hl]
        by_cases hs : setsSession l
        · have := ih ⟨sessionValOf l, (agentTextOf l).elim st1.last_agent_text some⟩
            ⟨sessionValOf l, (agentTextOf l).elim st2.last_agent_text some⟩
            hl' rfl (fun _ => rfl)
          simpa [processLines, h1, h2, hs] using this
        · have := ih ⟨st1.found_session, (agentTextOf l).elim st1.last_agent_text some⟩
            ⟨st2.found_session, (agentTextOf l).elim st2.last_agent_text some⟩
            hl' ht hf
          simpa [processLines, h1, h2, hs] using this

end ExecBridge
end Takopi

namespace Takopi

/-- C3: with the stream inside the modelled event-schema domain, `run`
fails with `executionFailed` — carrying the exit code and the bounded
stderr tail — exactly when the process exit code is non-zero; on a zero
exit with no session id supplied (empty counts as unsupplied) and none
observed on the stream it fails with `missingSessionId`; a truthy
supplied resume id always counts as known, so `missingSessionId` is then
impossible; and a known session with no observed reply text is not an
error: `run` returns the fixed placeholder as the reply. -/
theorem claim_C3 (sid : Option String) (stdout : List ExecBridge.OutLine)
    (stderr : List String) (rc : Int)
    (hcf : ExecBridge.crashFree stdout = true) :
    ((∃ rc' tail, ExecBridge.run sid stdout stderr rc =
        ExecBridge.RunResult.executionFailed rc' tail) ↔ rc ≠ 0) ∧
    (rc ≠ 0 → ExecBridge.run sid stdout stderr rc =
        ExecBridge.RunResult.executionFailed rc
          (ExecBridge.stderrTail stderr)) ∧
    (rc = 0 → ExecBridge.pyTruthyStrOpt sid = false →
      ExecBridge.observedSession stdout = false →
      ExecBridge.run sid stdout stderr rc =
        ExecBridge.RunResult.missingSessionId) ∧
    (rc = 0 → ExecBridge.pyTruthyStrOpt sid = true →
      ExecBridge.run sid stdout stderr rc ≠
        ExecBridge.RunResult.missingSessionId) ∧
    (rc = 0 →
      (ExecBridge.pyTruthyStrOpt sid ||
        ExecBridge.observedSession stdout) = true →
      ExecBridge.lastAgentText stdout = none →
      ∃ s, ExecBridge.run sid stdout stderr rc =
        ExecBridge.RunResult.ok s ExecBridge.noAgentMessagePlaceholder) := by
  obtain ⟨st', hst'⟩ := ExecBridge.crashFree_processLines stdout
    ⟨ExecBridge.initSession sid, none⟩ hcf
  have htr := ExecBridge.truthy_after stdout _ _ hst'
  rw [ExecBridge.pyTruthy_initSession] at htr
  have hrun : ExecBridge.run sid stdout stderr rc =
      (if rc ≠ 0 then
        ExecBridge.RunResult.executionFailed rc (ExecBridge.stderrTail stderr)
       else if !ExecBridge.pyTruthy st'.found_session then
        ExecBridge.RunResult.missingSessionId
       else ExecBridge.RunResult.ok st'.found_session
        (ExecBridge.replyText st'.last_agent_text)) := by
    unfold ExecBridge.run
    rw [hst']
  refine ⟨⟨?_, ?_⟩, ?_, ?_, ?_, ?_⟩
  · rintro ⟨rc', tail, he⟩
    intro h0
    rw [h0] at hrun he
    rw [he] at hrun
    simp only [ne_eq, not_true_eq_false, if_false, reduceIte] at hrun
    by_cases hb : ExecBridge.pyTruthy st'.found_session <;>
      simp [hb] at hrun
  · intro h
    exact ⟨rc, ExecBridge.stderrTail stderr, by rw [hrun]; simp [h]⟩
  · intro h
    rw [hrun]
    simp [h]
  · intro h0 hsid hobs
    rw [hrun, h0]
    have hf : ExecBridge.pyTruthy st'.found_session = false := by
      rw [htr, hsid, hobs]; rfl
    simp [hf]
  · intro h0 hsid
    rw [hrun, h0]
    have hf : ExecBridge.pyTruthy st'.found_session = true := by
      rw [htr, hsid]; rfl
    simp [hf]
  · intro h0 hor hlast
    rw [hrun, h0]
    have hf : ExecBridge.pyTruthy st'.found_session = true := by
      rw [htr, hor]
    have hl := ExecBridge.last_after stdout _ _ hst'
    rw [ExecBridge.lastAgentText] at hlast
    rw [hlast] at hl
    simp only [Option.elim] at hl
    refine ⟨st'.found_session, ?_⟩
    simp [hf, hl, ExecBridge.replyText]

end Takopi

namespace Takopi

/-- Witness for C3: an empty stream with exit code 2 fails with the exit
code and stderr tail; with exit code 0, no supplied id and no session
event, it fails with the missing-session error. -/
theorem claim_C3_witness :
    ExecBridge.run none [] ["boom"] 2 =
      ExecBridge.RunResult.executionFailed 2 (ExecBridge.stderrTail ["boom"]) ∧
    ExecBridge.run none [] [] 0 = ExecBridge.RunResult.missingSessionId :=
  ⟨(claim_C3 none [] ["boom"] 2 rfl).2.1 (by decide),
   (claim_C3 none [] [] 0 rfl).2.2.1 rfl rfl rfl⟩

/-- C4 counterexample: a stream line in exactly the shape the claim
describes — type `session.started`, id under `session_id`, non-empty id
`"abc"` — is not recognized by `run`; with exit code 0 and no resume id
the call fails with the missing-session error instead of returning
`"abc"`. -/
theorem claim_C4_counterexample :
    ExecBridge.run none [ExecBridge.sessionStartedLine "abc"] [] 0 =
      ExecBridge.RunResult.missingSessionId ∧ ("abc" : String) ≠ "" :=
  ⟨rfl, by decide⟩

/-- C4 as amended: the session-assignment event the code actually
recognizes has type `thread.started` with the id under `thread_id`.
For every run with no resume id and exit code 0 whose schema-domain
stream contains such a line with a non-empty id `s`, and no later
session assignment, `run` returns `s` as the session id rather than
failing with the missing-session error. -/
theorem claim_C4 (pre post : List ExecBridge.OutLine) (s : String)
    (stderr : List String) (hs : s ≠ "")
    (hcf : ExecBridge.crashFree
      (pre ++ ExecBridge.threadStartedLine s :: post) = true)
    (hpost : ∀ l ∈ post, ExecBridge.setsSession l = false) :
    ∃ reply,
      ExecBridge.run none (pre ++ ExecBridge.threadStartedLine s :: post)
          stderr 0 =
        ExecBridge.RunResult.ok (ExecBridge.JVal.str s) reply := by
  have hstr : s.isEmpty = false := by
    cases hh : s.isEmpty
    · rfl
    · exact absurd ((String.isEmpty_iff s).mp hh) hs
  have hsets : ExecBridge.setsSession (ExecBridge.threadStartedLine s) = true := by
    simp [ExecBridge.setsSession, ExecBridge.threadStartedLine,
      ExecBridge.isStr, ExecBridge.getField, ExecBridge.pyTruthy, hstr]
  have hcrash : ExecBridge.lineCrashes (ExecBridge.threadStartedLine s) = false :=
    rfl
  have hcf2 : ExecBridge.crashFree pre = true ∧
      ExecBridge.crashFree post = true := by
    simp only [ExecBridge.crashFree, List.all_append, List.all_cons,
      Bool.and_eq_true] at hcf ⊢
    exact ⟨hcf.1, hcf.2.2⟩
  obtain ⟨st1, h1⟩ := ExecBridge.crashFree_processLines pre
    ⟨ExecBridge.initSession none, none⟩ hcf2.1
  have hstep : ExecBridge.processLine st1 (ExecBridge.threadStartedLine s) =
      some ⟨ExecBridge.JVal.str s, st1.last_agent_text⟩ := by
    rw [ExecBridge.processLine_char]
    simp [hcrash, hsets]
    exact ⟨rfl, rfl⟩
  obtain ⟨st', h2⟩ := ExecBridge.crashFree_processLines post
    ⟨ExecBridge.JVal.str s, st1.last_agent_text⟩ hcf2.2
  have hfull : ExecBridge.processLines
      ⟨ExecBridge.initSession none, none⟩
      (pre ++ ExecBridge.threadStartedLine s :: post) = some st' := by
    rw [ExecBridge.processLines_append, h1]
    show ExecBridge.processLines st1
      (ExecBridge.threadStartedLine s :: post) = some st'
    simp only [ExecBridge.processLines, hstep]
    exact h2
  have hfound : st'.found_session = ExecBridge.JVal.str s :=
    ExecBridge.found_const post _ _ h2 hpost
  refine ⟨ExecBridge.replyText st'.last_agent_text, ?_⟩
  unfold ExecBridge.run
  rw [hfull]
  simp [hfound, ExecBridge.pyTruthy, hstr]

/-- Witness for C4 (amended): an unparsable line, then the
`thread.started` line for `"abc"`, then an agent message; the run
returns session `"abc"`. -/
theorem claim_C4_witness :
    ∃ reply,
      ExecBridge.run none
          ([ExecBridge.OutLine.unparsable] ++
            ExecBridge.threadStartedLine "abc" ::
              [ExecBridge.agentMessageLine "hi"]) [] 0 =
        ExecBridge.RunResult.ok (ExecBridge.JVal.str "abc") reply :=
  claim_C4 [ExecBridge.OutLine.unparsable] [ExecBridge.agentMessageLine "hi"]
    "abc" [] (by decide) (by decide) (by decide)

end Takopi

namespace Takopi

/-- C5 counterexample: an `item.completed` agent message whose `text` is
the empty string (a string, hence within the schema) is captured, yet
`run` returns the placeholder rather than that text, because Python's
`or` treats the empty captured string as absent. -/
theorem claim_C5_counterexample :
    ExecBridge.run (some "sess") [ExecBridge.agentMessageLine ""] [] 0 =
      ExecBridge.RunResult.ok (ExecBridge.JVal.str "sess")
        ExecBridge.noAgentMessagePlaceholder ∧
    ExecBridge.noAgentMessagePlaceholder ≠ "" :=
  ⟨rfl, by decide⟩

/-- C5 as amended: on success the reply is the text of the last
`item.completed` `agent_message` event when that text is non-empty, and
the fixed placeholder when no such event occurred or the last one's text
was the empty string (`replyText` applied to the last captured text);
unparsable lines and events with unrecognized `type` values are skipped
without affecting the result. -/
theorem claim_C5 :
    (∀ (sid : Option String) (ls : List ExecBridge.OutLine)
        (stderr : List String) (rc : Int) (s : ExecBridge.JVal) (r : String),
        ExecBridge.run sid ls stderr rc = ExecBridge.RunResult.ok s r →
        r = ExecBridge.replyText (ExecBridge.lastAgentText ls)) ∧
    (∀ (sid : Option String) (ls1 ls2 : List ExecBridge.OutLine)
        (l : ExecBridge.OutLine) (stderr : List String) (rc : Int),
        ExecBridge.skippable l = true →
        ExecBridge.run sid (ls1 ++ l :: ls2) stderr rc =
          ExecBridge.run sid (ls1 ++ ls2) stderr rc) := by
  constructor
  · intro sid ls stderr rc s r h
    unfold ExecBridge.run at h
    cases hp : ExecBridge.processLines
        ⟨ExecBridge.initSession sid, none⟩ ls with
    | none => rw [hp] at h; simp at h
    | some st' =>
        rw [hp] at h
        by_cases h0 : rc ≠ 0
        · simp [h0] at h
        · simp only [h0, if_false, reduceIte] at h
          by_cases hb : ExecBridge.pyTruthy st'.found_session
          · simp only [hb, Bool.not_true, Bool.false_eq_true, if_false,
              reduceIte] at h
            have hlast := ExecBridge.last_after ls _ _ hp
            have : r = ExecBridge.replyText st'.last_agent_text := by
              cases h; rfl
            rw [this, hlast, ExecBridge.lastAgentText]
            cases (ls.filterMap ExecBridge.agentTextOf).getLast? <;> rfl
          · simp [hb] at h
  · intro sid ls1 ls2 l stderr rc hskip
    have key : ∀ st : ExecBridge.LoopState,
        ExecBridge.processLines st (ls1 ++ l :: ls2) =
          ExecBridge.processLines st (ls1 ++ ls2) := by
      intro st
      rw [ExecBridge.processLines_append, ExecBridge.processLines_append]
      apply congrArg
      funext st1
      simp only [ExecBridge.processLines,
        ExecBridge.skippable_processLine st1 l hskip]
    unfold ExecBridge.run
    rw [key]

/-- Witness for C5: the last of two agent messages ("x", then "y") wins,
and removing a skippable unparsable line leaves the run unchanged. -/
theorem claim_C5_witness :
    ("y" : String) = ExecBridge.replyText (ExecBridge.lastAgentText
      [ExecBridge.threadStartedLine "s", ExecBridge.agentMessageLine "x",
       ExecBridge.agentMessageLine "y"]) ∧
    ExecBridge.run none
        ([] ++ ExecBridge.OutLine.unparsable ::
          [ExecBridge.agentMessageLine "hi"]) [] 0 =
      ExecBridge.run none ([] ++ [ExecBridge.agentMessageLine "hi"]) [] 0 :=
  ⟨claim_C5.1 none
      [ExecBridge.threadStartedLine "s", ExecBridge.agentMessageLine "x",
       ExecBridge.agentMessageLine "y"] [] 0 (ExecBridge.JVal.str "s") "y" rfl,
   claim_C5.2 none [] [ExecBridge.agentMessageLine "hi"]
      ExecBridge.OutLine.unparsable [] 0 rfl⟩

end Takopi

namespace Takopi

/-- C10: an empty-string session id behaves exactly as no session id:
the argv is built in new-session mode, `run_serialized` takes no
per-session lock, `run` behaves identically on every stream, and in
particular a zero-exit run with no session event on the stream still
fails with the missing-session error despite the (empty) supplied id. -/
theorem claim_C10 :
    (∀ cfg : ExecBridge.RunnerConfig,
        ExecBridge.buildArgs cfg (some "") = ExecBridge.buildArgs cfg none) ∧
    ExecBridge.usesSessionLock (some "") = false ∧
    (∀ (ls : List ExecBridge.OutLine) (stderr : List String) (rc : Int),
        ExecBridge.run (some "") ls stderr rc =
          ExecBridge.run none ls stderr rc) ∧
    (∀ (ls : List ExecBridge.OutLine) (stderr : List String),
        ExecBridge.observedSession ls = false →
        ExecBridge.crashFree ls = true →
        ExecBridge.run (some "") ls stderr 0 =
          ExecBridge.RunResult.missingSessionId) := by
  refine ⟨fun cfg => rfl, rfl, ?_, ?_⟩
  · intro ls stderr rc
    have hpair := ExecBridge.processLines_falsy_pair ls
      ⟨ExecBridge.initSession (some ""), none⟩
      ⟨ExecBridge.initSession none, none⟩ rfl rfl
      (fun h => absurd h (by decide))
    unfold ExecBridge.run
    rcases hpair with ⟨h1, h2⟩ | ⟨st1', st2', h1, h2, hl, ht, hf⟩
    · rw [h1, h2]
    · rw [h1, h2]
      by_cases h0 : rc ≠ 0
      · simp [h0]
      · simp only [h0, if_false, reduceIte]
        by_cases hb : ExecBridge.pyTruthy st1'.found_session = true
        · rw [hf hb, hl]
        · have hbf : ExecBridge.pyTruthy st1'.found_session = false := by
            simpa using hb
          have hbf2 : ExecBridge.pyTruthy st2'.found_session = false := by
            rw [← ht]; exact hbf
          simp [hbf, hbf2]
  · intro ls stderr hobs hcf
    obtain ⟨st', hst'⟩ := ExecBridge.crashFree_processLines ls
      ⟨ExecBridge.initSession (some ""), none⟩ hcf
    have htr := ExecBridge.truthy_after ls _ _ hst'
    rw [ExecBridge.pyTruthy_initSession, hobs] at htr
    have hf : ExecBridge.pyTruthy st'.found_session = false := by
      rw [htr]; rfl
    unfold ExecBridge.run
    rw [hst']
    simp [hf]

/-- Witness for C10 at concrete inputs: identical argv and identical run
outcome with and without the empty id, and the concrete missing-session
failure on an empty stream. -/
theorem claim_C10_witness :
    ExecBridge.buildArgs ⟨"codex", none, ["--full-auto"]⟩ (some "") =
      ExecBridge.buildArgs ⟨"codex", none, ["--full-auto"]⟩ none ∧
    ExecBridge.run (some "") [ExecBridge.threadStartedLine "z"] ["e"] 5 =
      ExecBridge.run none [ExecBridge.threadStartedLine "z"] ["e"] 5 ∧
    ExecBridge.run (some "") [] [] 0 =
      ExecBridge.RunResult.missingSessionId :=
  ⟨claim_C10.1 ⟨"codex", none, ["--full-auto"]⟩,
   claim_C10.2.2.1 [ExecBridge.threadStartedLine "z"] ["e"] 5,
   claim_C10.2.2.2 [] [] rfl rfl⟩

end Takopi

namespace Takopi
namespace Locks

theorem lockInv_init (sids : Nat → Option String) : LockInv sids initLS := by
  constructor
  · intro i s hp
    simp [initLS] at hp
  · intro i j s _ hp
    simp [initLS] at hp

theorem lockInv_step (sids : Nat → Option String) (st st' : LockSystem)
    (hstep : LockStep sids st st') (hinv : LockInv sids st) :
    LockInv sids st' := by
  obtain ⟨inv1, inv2⟩ := hinv
  cases hstep with
  | startNoLock i hp hs =>
      constructor
      · intro i' s hp' hsid hne
        dsimp only at hp' ⊢
        rcases eq_or_ne i' i with rfl | hii
        · rw [hsid] at hs
          simp [ExecBridge.pyTruthyStrOpt] at hs
          rw [String.isEmpty_iff] at hs
          exact absurd hs hne
        · rw [Function.update_noteq hii] at hp'
          exact inv1 i' s hp' hsid hne
      · intro i' j' s hij hp' hq' hsid hsid' hne
        dsimp only at hp' hq'
        rcases eq_or_ne i' i with rfl | hii
        · rw [hsid] at hs
          simp [ExecBridge.pyTruthyStrOpt] at hs
          rw [String.isEmpty_iff] at hs
          exact absurd hs hne
        · rcases eq_or_ne j' i with rfl | hjj
          · rw [hsid'] at hs
            simp [ExecBridge.pyTruthyStrOpt] at hs
            rw [String.isEmpty_iff] at hs
            exact absurd hs hne
          · rw [Function.update_noteq hii] at hp'
            rw [Function.update_noteq hjj] at hq'
            exact inv2 i' j' s hij hp' hq' hsid hsid' hne
  | startLock i hp hs =>
      constructor
      · intro i' s hp' hsid hne
        dsimp only at hp' ⊢
        rcases eq_or_ne i' i with rfl | hii
        · rw [Function.update_same] at hp'
          exact absurd hp' (by simp)
        · rw [Function.update_noteq hii] at hp'
          exact inv1 i' s hp' hsid hne
      · intro i' j' s hij hp' hq' hsid hsid' hne
        dsimp only at hp' hq'
        rcases eq_or_ne i' i with rfl | hii
        · rw [Function.update_same] at hp'
          exact absurd hp' (by simp)
        · rcases eq_or_ne j' i with rfl | hjj
          · rw [Function.update_same] at hq'
            exact absurd hq' (by simp)
          · rw [Function.update_noteq hii] at hp'
            rw [Function.update_noteq hjj] at hq'
            exact inv2 i' j' s hij hp' hq' hsid hsid' hne
  | acquire i s hp hs hfree =>
      constructor
      · intro i' s' hp' hsid hne
        dsimp only at hp' ⊢
        rcases eq_or_ne i' i with rfl | hii
        · rw [hs] at hsid
          injection hsid with hss
          subst hss
          rw [Function.update_same]
        · rw [Function.update_noteq hii] at hp'
          have h1 := inv1 i' s' hp' hsid hne
          rcases eq_or_ne s' s with rfl | hss
          · rw [Function.update_same]
          · rw [Function.update_noteq hss]
            exact h1
      · intro i' j' s' hij hp' hq' hsid hsid' hne
        dsimp only at hp' hq'
        rcases eq_or_ne i' i with rfl | hii
        · rw [hs] at hsid
          injection hsid with hss
          subst hss
          rw [Function.update_noteq (Ne.symm hij)] at hq'
          have h1 := inv1 j' s hq' hsid' hne
          rw [h1] at hfree
          simp at hfree
        · rcases eq_or_ne j' i with rfl | hjj
          · rw [hs] at hsid'
            injection hsid' with hss
            subst hss
            rw [Function.update_noteq hii] at hp'
            have h1 := inv1 i' s hp' hsid hne
            rw [h1] at hfree
            simp at hfree
          · rw [Function.update_noteq hii] at hp'
            rw [Function.update_noteq hjj] at hq'
            exact inv2 i' j' s' hij hp' hq' hsid hsid' hne
  | finishNoLock i hp hs =>
      constructor
      · intro i' s hp' hsid hne
        dsimp only at hp' ⊢
        rcases eq_or_ne i' i with rfl | hii
        · rw [Function.update_same] at hp'
          exact absurd hp' (by simp)
        · rw [Function.update_noteq hii] at hp'
          exact inv1 i' s hp' hsid hne
      · intro i' j' s hij hp' hq' hsid hsid' hne
        dsimp only at hp' hq'
        rcases eq_or_ne i' i with rfl | hii
        · rw [Function.update_same] at hp'
          exact absurd hp' (by simp)
        · rcases eq_or_ne j' i with rfl | hjj
          · rw [Function.update_same] at hq'
            exact absurd hq' (by simp)
          · rw [Function.update_noteq hii] at hp'
            rw [Function.update_noteq hjj] at hq'
            exact inv2 i' j' s hij hp' hq' hsid hsid' hne
  | finishLock i s hp hs ht =>
      constructor
      · intro i' s' hp' hsid hne
        dsimp only at hp' ⊢
        rcases eq_or_ne i' i with rfl | hii
        · rw [Function.update_same] at hp'
          exact absurd hp' (by simp)
        · rw [Function.update_noteq hii] at hp'
          have h1 := inv1 i' s' hp' hsid hne
          rcases eq_or_ne s' s with rfl | hss
          · exact (inv2 i' i s' hii hp' hp hsid hs hne).elim
          · rw [Function.update_noteq hss]
            exact h1
      · intro i' j' s' hij hp' hq' hsid hsid' hne
        dsimp only at hp' hq'
        rcases eq_or_ne i' i with rfl | hii
        · rw [Function.update_same] at hp'
          exact absurd hp' (by simp)
        · rcases eq_or_ne j' i with rfl | hjj
          · rw [Function.update_same] at hq'
            exact absurd hq' (by simp)
          · rw [Function.update_noteq hii] at hp'
            rw [Function.update_noteq hjj] at hq'
            exact inv2 i' j' s' hij hp' hq' hsid hsid' hne

theorem reach_lockInv (sids : Nat → Option String) (st : LockSystem)
    (h : Reach sids st) : LockInv sids st := by
  induction h with
  | refl => exact lockInv_init sids
  | tail hr hstep ih => exact lockInv_step sids _ _ hstep ih

end Locks
end Takopi

namespace Takopi

/-- C1: in the interleaving model of `run_serialized`, two threads that
supplied the same non-empty resume session id are never both inside the
external-process invocation in any reachable state (the per-session lock
is taken before the invocation and held for its whole duration); while
two threads with distinct resume ids, or with no resume id, can reach a
state where both are inside it simultaneously. -/
theorem claim_C1 :
    (∀ (sids : Nat → Option String) (st : Locks.LockSystem),
        Locks.Reach sids st → ∀ i j s, i ≠ j → sids i = some s →
        sids j = some s → s ≠ "" →
        ¬(st.phases i = Locks.Phase.running ∧
          st.phases j = Locks.Phase.running)) ∧
    (∃ st : Locks.LockSystem,
        Locks.Reach (fun n => if n = 0 then some "a" else some "b") st ∧
        st.phases 0 = Locks.Phase.running ∧
        st.phases 1 = Locks.Phase.running) ∧
    (∃ st : Locks.LockSystem,
        Locks.Reach (fun _ => (none : Option String)) st ∧
        st.phases 0 = Locks.Phase.running ∧
        st.phases 1 = Locks.Phase.running) := by
  refine ⟨?_, ?_, ?_⟩
  · rintro sids st hr i j s hij hsi hsj hne ⟨h1, h2⟩
    exact (Locks.reach_lockInv sids st hr).2 i j s hij h1 h2 hsi hsj hne
  · refine ⟨_, Relation.ReflTransGen.tail (Relation.ReflTransGen.tail
      (Relation.ReflTransGen.tail (Relation.ReflTransGen.tail
        Relation.ReflTransGen.refl
        (Locks.LockStep.startLock Locks.initLS 0 rfl (by decide)))
        (Locks.LockStep.startLock _ 1 (by decide) (by decide)))
        (Locks.LockStep.acquire _ 0 "a" (by decide) (by decide) (by decide)))
        (Locks.LockStep.acquire _ 1 "b" (by decide) (by decide) (by decide)),
      ?_, ?_⟩ <;> decide
  · refine ⟨_, Relation.ReflTransGen.tail (Relation.ReflTransGen.tail
      Relation.ReflTransGen.refl
      (Locks.LockStep.startNoLock Locks.initLS 0 rfl rfl))
      (Locks.LockStep.startNoLock _ 1 (by decide) rfl),
      ?_, ?_⟩ <;> decide

/-- Witness for C1: the mutual-exclusion part applied at the initial
state, two threads sharing the non-empty id "x". -/
theorem claim_C1_witness :
    ¬(Locks.initLS.phases 0 = Locks.Phase.running ∧
      Locks.initLS.phases 1 = Locks.Phase.running) :=
  claim_C1.1 (fun _ => some "x") Locks.initLS Relation.ReflTransGen.refl 0 1
    "x" (by decide) rfl rfl (by decide)

end Takopi
